import Mathlib

/-!
Shallow embedding of the customers-migration reconciliation core:
the `Customer` entity and `Email` value object, the `CustomerMergeService`
(`merge`, `diff`), and the three orchestrating use cases
(`GetCustomerByEmailUseCase`, `SyncCustomerUseCase`, `SearchCustomersUseCase`).
Timestamps (`Date`) are modelled as epoch milliseconds (`Int`); `null`-able
values as `Option`; thrown exceptions as `Except` errors.
-/

namespace CustMig

/-- `SourceSystem` enum (SYSTEM_A, SYSTEM_B, BOTH). -/
inductive SourceSystem where
  | systemA
  | systemB
  | both
deriving DecidableEq, Repr

/-- Domain `Customer` entity (src/customer/domain/entities/customer.entity.ts).
`lastUpdated : Date` is modelled as epoch milliseconds; `Date` comparison in
the service compares these numbers. -/
structure Customer where
  id : String
  email : String
  name : String
  address : String
  phone : Option String
  contractStartDate : Option String
  contractType : Option String
  lastUpdated : Int
  source : SourceSystem
deriving DecidableEq, Repr

/-- `toLowerCase()`, character by character (ASCII case mapping). -/
def jsToLower (s : String) : String := String.mk (s.toList.map Char.toLower)

/-- `trim()`: strip leading and trailing whitespace. -/
def jsTrim (s : String) : String :=
  String.mk
    (((s.toList.dropWhile Char.isWhitespace).reverse.dropWhile
        Char.isWhitespace).reverse)

/-- `email.toLowerCase().trim()`, the normalization applied by the `Customer`
and `Email` constructors and by the use cases. -/
def normalizeEmail (s : String) : String := jsTrim (jsToLower s)

/-- The `Customer` constructor: it lower-cases and trims the email
(`params.email.toLowerCase().trim()`) and defaults the optional fields to
`null`; it performs no validation and cannot fail. -/
def Customer.create (id email name address : String)
    (phone contractStartDate contractType : Option String)
    (lastUpdated : Int) (source : SourceSystem) : Customer :=
  { id := id
    email := normalizeEmail email
    name := name
    address := address
    phone := phone
    contractStartDate := contractStartDate
    contractType := contractType
    lastUpdated := lastUpdated
    source := source }

/-- The character class `[^\s@]` of the email validation regex. -/
def emailChar (c : Char) : Bool := !c.isWhitespace && c != '@'

/-- `Email.isValid`: the regex `^[^\s@]+@[^\s@]+\.[^\s@]+$`.
Both sides of the `@` exclude `@` itself, so a match has exactly one `@`
(`splitOn "@"` yields exactly two parts); the local part is a non-empty run
of `[^\s@]`; the domain part is `[^\s@]+ . [^\s@]+`, i.e. a non-empty run of
`[^\s@]` containing a dot that is neither its first nor its last character
(the runs on either side of that dot may themselves contain dots). -/
def Email.isValid (s : String) : Bool :=
  match s.toList.splitOn '@' with
  | [l, d] =>
      !l.isEmpty && l.all emailChar &&
      !d.isEmpty && d.all emailChar &&
      ((d.drop 1).dropLast.contains '.')
  | _ => false

/-- The `Email` value object constructor: normalizes, then throws on an
invalid normalized value (modelled as `none`); a constructed `Email` holds
the normalized string. -/
def Email.create (s : String) : Option String :=
  let normalized := normalizeEmail s
  if Email.isValid normalized then some normalized else none

/-- JS truthiness of a `string | null` value: `null` and `""` are falsy. -/
def truthy : Option String → Bool
  | some v => v != ""
  | none => false

/-- `FieldMetadata` of the merge service. The source spreads
`systemAValue`/`systemBValue` into the object only when the field conflicts;
an absent key is modelled as `none`. -/
structure FieldMetadata where
  source : SourceSystem
  conflict : Bool
  systemAValue : Option String
  systemBValue : Option String
deriving DecidableEq, Repr

/-- The `fields : Record<string, FieldMetadata>` map. The service only ever
stores these five keys; a key it does not set is modelled as `none`
(`name` is set on every path, so it is not optional). -/
structure UnifiedFields where
  name : FieldMetadata
  phone : Option FieldMetadata
  address : Option FieldMetadata
  contractStartDate : Option FieldMetadata
  contractType : Option FieldMetadata
deriving DecidableEq, Repr

/-- `Object.values(fields).some((f) => f.conflict)`. -/
def UnifiedFields.anyConflict (f : UnifiedFields) : Bool :=
  f.name.conflict ||
  (f.phone.map FieldMetadata.conflict).getD false ||
  (f.address.map FieldMetadata.conflict).getD false ||
  (f.contractStartDate.map FieldMetadata.conflict).getD false ||
  (f.contractType.map FieldMetadata.conflict).getD false

structure Identifiers where
  systemAId : Option String
  systemBUuid : Option String
deriving DecidableEq, Repr

structure UnifiedCustomerMetadata where
  sources : List SourceSystem
  isPartial : Bool
  conflictsDetected : Bool
  fields : UnifiedFields
deriving DecidableEq, Repr

structure UnifiedCustomerOutput where
  email : String
  name : String
  phone : Option String
  address : String
  contractStartDate : Option String
  contractType : Option String
  identifiers : Identifiers
  _metadata : UnifiedCustomerMetadata
deriving DecidableEq, Repr

inductive SyncStatus where
  | in_sync
  | conflicts_found
  | single_source_only
deriving DecidableEq, Repr

structure FieldConflict where
  field : String
  systemAValue : Option String
  systemBValue : Option String
  newerSource : SourceSystem
deriving DecidableEq, Repr

/-- `SyncResultOutput`; `lastUpdated.systemA/systemB` are kept as the raw
timestamps instead of ISO strings. -/
structure SyncResultOutput where
  email : String
  status : SyncStatus
  presentIn : Option SourceSystem
  lastUpdatedA : Option Int
  lastUpdatedB : Option Int
  conflicts : List FieldConflict
  matchedFields : List String
deriving DecidableEq, Repr

/-- `CustomerMergeService.mergeFromBothSystems`. -/
def mergeFromBothSystems (systemA systemB : Customer) : UnifiedCustomerOutput :=
  let nameConflict : Bool := systemA.name != systemB.name
  let newerNameSource : SourceSystem :=
    if systemB.lastUpdated > systemA.lastUpdated then .systemB else .systemA
  let nameField : FieldMetadata :=
    { source := if nameConflict then newerNameSource else .both
      conflict := nameConflict
      systemAValue := if nameConflict then some systemA.name else none
      systemBValue := if nameConflict then some systemB.name else none }
  let phoneField : Option FieldMetadata :=
    if truthy systemB.phone then
      some { source := .systemB, conflict := false
             systemAValue := none, systemBValue := none }
    else if truthy systemA.phone then
      some { source := .systemA, conflict := false
             systemAValue := none, systemBValue := none }
    else none
  -- `systemA.address != null && systemB.address != null` is vacuously true:
  -- `address` is a non-nullable string on the entity.
  let addressConflict : Bool := systemA.address != systemB.address
  let addressField : FieldMetadata :=
    { source := .systemB
      conflict := addressConflict
      systemAValue := if addressConflict then some systemA.address else none
      systemBValue := if addressConflict then some systemB.address else none }
  let csdField : Option FieldMetadata :=
    if truthy systemA.contractStartDate then
      some { source := .systemA, conflict := false
             systemAValue := none, systemBValue := none }
    else if truthy systemB.contractStartDate then
      some { source := .systemB, conflict := false
             systemAValue := none, systemBValue := none }
    else none
  let ctField : Option FieldMetadata :=
    if truthy systemA.contractType then
      some { source := .systemA, conflict := false
             systemAValue := none, systemBValue := none }
    else if truthy systemB.contractType then
      some { source := .systemB, conflict := false
             systemAValue := none, systemBValue := none }
    else none
  let fields : UnifiedFields :=
    { name := nameField, phone := phoneField, address := some addressField
      contractStartDate := csdField, contractType := ctField }
  let mergedName : String :=
    if systemB.lastUpdated > systemA.lastUpdated then systemB.name else systemA.name
  { email := systemA.email
    name := mergedName
    -- `systemB.phone ?? systemA.phone` (nullish coalescing)
    phone := match systemB.phone with
      | some p => some p
      | none => systemA.phone
    address := systemB.address
    contractStartDate := match systemA.contractStartDate with
      | some v => some v
      | none => systemB.contractStartDate
    contractType := match systemA.contractType with
      | some v => some v
      | none => systemB.contractType
    identifiers := { systemAId := some systemA.id, systemBUuid := some systemB.id }
    _metadata :=
      { sources := [.systemA, .systemB]
        isPartial := false
        conflictsDetected := fields.anyConflict
        fields := fields } }

/-- `CustomerMergeService.buildSingleSourceResult`. -/
def buildSingleSourceResult (customer : Customer) (source : SourceSystem) :
    UnifiedCustomerOutput :=
  let fields : UnifiedFields :=
    { name := { source := source, conflict := false
                systemAValue := none, systemBValue := none }
      -- `if (customer.address)`: string truthiness
      address := if customer.address != "" then
          some { source := source, conflict := false
                 systemAValue := none, systemBValue := none }
        else none
      phone := if truthy customer.phone then
          some { source := source, conflict := false
                 systemAValue := none, systemBValue := none }
        else none
      contractStartDate := if truthy customer.contractStartDate then
          some { source := source, conflict := false
                 systemAValue := none, systemBValue := none }
        else none
      contractType := if truthy customer.contractType then
          some { source := source, conflict := false
                 systemAValue := none, systemBValue := none }
        else none }
  { email := customer.email
    name := customer.name
    phone := customer.phone
    address := customer.address
    contractStartDate := customer.contractStartDate
    contractType := customer.contractType
    identifiers :=
      { systemAId := if source = .systemA then some customer.id else none
        systemBUuid := if source = .systemB then some customer.id else none }
    _metadata :=
      { sources := [source]
        isPartial := false
        conflictsDetected := false
        fields := fields } }

/-- `CustomerMergeService.merge`; the thrown `Error` is modelled as an
`Except.error` carrying the source's message (the spec's
`InvariantViolation`). -/
def merge (systemA systemB : Option Customer) :
    Except String UnifiedCustomerOutput :=
  match systemA, systemB with
  | none, none => .error "Cannot merge: no customer data from either system"
  | some a, none => .ok (buildSingleSourceResult a .systemA)
  | none, some b => .ok (buildSingleSourceResult b .systemB)
  | some a, some b => .ok (mergeFromBothSystems a b)

/-- The `fieldsToCompare` array built by `CustomerMergeService.diff`:
(field name, systemA value, systemB value); `name` and `address` are
non-nullable strings, hence always `some`. -/
def fieldsToCompare (systemA systemB : Customer) :
    List (String × Option String × Option String) :=
  [ ("name", some systemA.name, some systemB.name),
    ("address", some systemA.address, some systemB.address),
    ("phone", systemA.phone, systemB.phone),
    ("contractStartDate", systemA.contractStartDate, systemB.contractStartDate),
    ("contractType", systemA.contractType, systemB.contractType) ]

/-- One iteration of the comparison loop in `CustomerMergeService.diff`,
accumulating (conflicts, matchedFields). -/
def diffStep (newerSource : SourceSystem)
    (acc : List FieldConflict × List String)
    (entry : String × Option String × Option String) :
    List FieldConflict × List String :=
  match entry with
  | (field, aVal, bVal) =>
    if aVal.isNone && bVal.isNone then acc
    else if aVal == bVal then (acc.1, acc.2 ++ [field])
    else (acc.1 ++ [{ field := field, systemAValue := aVal, systemBValue := bVal
                      newerSource := newerSource }], acc.2)

/-- `CustomerMergeService.diff`. -/
def diff (systemA systemB : Customer) : SyncResultOutput :=
  let newerSource : SourceSystem :=
    if systemA.lastUpdated ≥ systemB.lastUpdated then .systemA else .systemB
  let acc :=
    (fieldsToCompare systemA systemB).foldl (diffStep newerSource) ([], ["email"])
  { email := systemA.email
    status := if acc.1.length > 0 then .conflicts_found else .in_sync
    presentIn := none
    lastUpdatedA := some systemA.lastUpdated
    lastUpdatedB := some systemB.lastUpdated
    conflicts := acc.1
    matchedFields := acc.2 }

/-- Errors thrown by the use cases: `CustomerNotFoundException` (carrying the
normalized email) and a propagated merge failure. -/
inductive UseCaseError where
  | notFound (email : String)
  | mergeFailure (message : String)
deriving DecidableEq, Repr

/-- The partial-flag block shared verbatim by `GetCustomerByEmailUseCase` and
`SearchCustomersUseCase`: after merging, mark the result partial when exactly
one lookup returned a record. -/
def applyPartialFlag (customerA customerB : Option Customer)
    (result : UnifiedCustomerOutput) : UnifiedCustomerOutput :=
  if (customerA.isNone && customerB.isSome) || (customerA.isSome && customerB.isNone)
  then { result with
          _metadata := { result._metadata with isPartial := true } }
  else result

/-- Merge a pair of lookup results and apply the partial flag, propagating a
merge failure; the per-email body used by both orchestrating use cases. -/
def mergeLookupPair (customerA customerB : Option Customer) :
    Except UseCaseError UnifiedCustomerOutput :=
  match merge customerA customerB with
  | .error m => .error (.mergeFailure m)
  | .ok result => .ok (applyPartialFlag customerA customerB result)

/-- `GetCustomerByEmailUseCase.execute`: the two repository lookups are passed
as functions (a lookup that errors is translated to `none` per the repository
interface contract). -/
def getCustomerByEmail (email : String)
    (lookupA lookupB : String → Option Customer) :
    Except UseCaseError UnifiedCustomerOutput :=
  let normalizedEmail := normalizeEmail email
  let customerA := lookupA normalizedEmail
  let customerB := lookupB normalizedEmail
  if customerA.isNone && customerB.isNone then
    .error (.notFound normalizedEmail)
  else
    mergeLookupPair customerA customerB

/-- `SyncCustomerUseCase.execute`. -/
def syncCustomer (email : String)
    (lookupA lookupB : String → Option Customer) :
    Except UseCaseError SyncResultOutput :=
  let normalizedEmail := normalizeEmail email
  match lookupA normalizedEmail, lookupB normalizedEmail with
  | none, none => .error (.notFound normalizedEmail)
  | some customerA, none =>
      .ok { email := normalizedEmail
            status := .single_source_only
            presentIn := some .systemA
            lastUpdatedA := some customerA.lastUpdated
            lastUpdatedB := none
            conflicts := []
            matchedFields := [] }
  | none, some customerB =>
      .ok { email := normalizedEmail
            status := .single_source_only
            presentIn := some .systemB
            lastUpdatedA := none
            lastUpdatedB := some customerB.lastUpdated
            conflicts := []
            matchedFields := [] }
  | some customerA, some customerB => .ok (diff customerA customerB)

/-- The email-keyed `Map` built by `SearchCustomersUseCase`
(`for (const c of customers) map.set(c.email, c)`): a later record with the
same email overwrites an earlier one. -/
def buildEmailMap (customers : List Customer) : String → Option Customer :=
  customers.foldl
    (fun m c => fun e => if e = c.email then some c else m e)
    (fun _ => none)

/-- JS `Set` insertion: append the key if it was not seen yet. -/
def insertUnique (acc : List String) (e : String) : List String :=
  if e ∈ acc then acc else acc ++ [e]

/-- `new Set([...mapA.keys(), ...mapB.keys()])`: the distinct emails of both
search results, in first-insertion order. -/
def allEmails (customersA customersB : List Customer) : List String :=
  (customersA.map Customer.email ++ customersB.map Customer.email).foldl
    insertUnique []

/-- The cross-reference step of `SearchCustomersUseCase`: for every collected
email missing from one side's map, that side's `findByEmail` is attempted and
a found record is added (`if (c) map.set(email, c)`; a rejected lookup is
swallowed by `.catch`, modelled as `none`). -/
def crossReferencedMap (m : String → Option Customer) (emails : List String)
    (lookup : String → Option Customer) : String → Option Customer :=
  fun e =>
    match m e with
    | some c => some c
    | none => if e ∈ emails then lookup e else none

/-- The result-collection loop of `SearchCustomersUseCase`: one merged record
per email, aborting with the first thrown merge failure. -/
def collectMerged (f : String → Except UseCaseError UnifiedCustomerOutput) :
    List String → Except UseCaseError (List UnifiedCustomerOutput)
  | [] => .ok []
  | e :: rest =>
    match f e with
    | .error err => .error err
    | .ok u =>
      match collectMerged f rest with
      | .error err => .error err
      | .ok us => .ok (u :: us)

/-- `SearchCustomersUseCase.execute`, parameterized by the two sides' name
search results and `findByEmail` lookups. -/
def searchCustomers (customersA customersB : List Customer)
    (lookupA lookupB : String → Option Customer) :
    Except UseCaseError (List UnifiedCustomerOutput) :=
  let mapA := buildEmailMap customersA
  let mapB := buildEmailMap customersB
  let emails := allEmails customersA customersB
  let mapA' := crossReferencedMap mapA emails lookupA
  let mapB' := crossReferencedMap mapB emails lookupB
  collectMerged (fun e => mergeLookupPair (mapA' e) (mapB' e)) emails

/-! Concrete records used by witnesses and counterexamples. -/

def custA1 : Customer :=
  { id := "legacy_001", email := "max@example.de", name := "Max Mustermann"
    address := "Sonnenallee 1, 12345 Berlin", phone := some "+49 111"
    contractStartDate := some "2021-03-15", contractType := some "RENTAL"
    lastUpdated := 100, source := .systemA }

def custB1 : Customer :=
  { id := "uuid-0001", email := "max@example.de", name := "Max M."
    address := "Hauptstr. 42, 10115 Berlin", phone := some "+49 222"
    contractStartDate := none, contractType := some "RENTAL"
    lastUpdated := 200, source := .systemB }

/-- A System B record whose phone is present but empty. -/
def custB2 : Customer :=
  { id := "uuid-0002", email := "max@example.de", name := "Max Mustermann"
    address := "Sonnenallee 1, 12345 Berlin", phone := some ""
    contractStartDate := none, contractType := none
    lastUpdated := 200, source := .systemB }

/-! Characterization of the `diff` comparison loop. -/

/-- The loop's skip condition for an entry: both values null. -/
def entrySkipped (t : String × Option String × Option String) : Bool :=
  t.2.1.isNone && t.2.2.isNone

/-- An entry the loop records in `matchedFields`. -/
def entryMatched (t : String × Option String × Option String) : Bool :=
  !entrySkipped t && (t.2.1 == t.2.2)

/-- An entry the loop records in `conflicts`. -/
def entryConflicting (t : String × Option String × Option String) : Bool :=
  !entrySkipped t && !(t.2.1 == t.2.2)

lemma foldl_diffStep (ns : SourceSystem)
    (l : List (String × Option String × Option String))
    (acc : List FieldConflict × List String) :
    l.foldl (diffStep ns) acc =
      (acc.1 ++ (l.filter entryConflicting).map
         (fun t => { field := t.1, systemAValue := t.2.1
                     systemBValue := t.2.2, newerSource := ns }),
       acc.2 ++ (l.filter entryMatched).map Prod.fst) := by
  induction l generalizing acc with
  | nil => simp
  | cons h tl ih =>
    obtain ⟨field, aVal, bVal⟩ := h
    rw [List.foldl_cons, ih]
    by_cases h1 : (aVal.isNone && bVal.isNone) = true
    · simp [diffStep, entryConflicting, entryMatched, entrySkipped, h1]
    · by_cases h2 : (aVal == bVal) = true
      · simp [diffStep, entryConflicting, entryMatched, entrySkipped, h1, h2]
      · simp [diffStep, entryConflicting, entryMatched, entrySkipped, h1, h2]

/-- The `newerSource` value computed once at the top of `diff`. -/
def diffNewerSource (systemA systemB : Customer) : SourceSystem :=
  if systemA.lastUpdated ≥ systemB.lastUpdated then .systemA else .systemB

lemma diff_conflicts_eq (a b : Customer) :
    (diff a b).conflicts =
      ((fieldsToCompare a b).filter entryConflicting).map
        (fun t => { field := t.1, systemAValue := t.2.1
                    systemBValue := t.2.2
                    newerSource := diffNewerSource a b }) := by
  simp [diff, foldl_diffStep, diffNewerSource]

lemma diff_matched_eq (a b : Customer) :
    (diff a b).matchedFields =
      "email" :: ((fieldsToCompare a b).filter entryMatched).map Prod.fst := by
  simp [diff, foldl_diffStep]

lemma diff_status_eq (a b : Customer) :
    (diff a b).status =
      if (diff a b).conflicts.length > 0 then SyncStatus.conflicts_found
      else SyncStatus.in_sync := rfl

lemma fieldsToCompare_names (a b : Customer) :
    (fieldsToCompare a b).map Prod.fst =
      ["name", "address", "phone", "contractStartDate", "contractType"] := rfl

/-- The phone rule in the specification's words, for comparison with the
code: prefer B's phone when it is present AND non-empty, else A's. -/
def specPhonePreference (a b : Customer) : Option String :=
  match b.phone with
  | some p => if p = "" then a.phone else some p
  | none => a.phone

/-- C1: the merged phone does not follow the claimed "present and non-empty"
rule: when B's phone is present but empty (`custB2`), the code's nullish
coalescing keeps B's empty phone while the claim demands A's phone. -/
theorem merge_phone_claim_cex :
    (merge (some custA1) (some custB2)).toOption.map
        UnifiedCustomerOutput.phone ≠
      some (specPhonePreference custA1 custB2) := by decide

/-- C1 (amended): the merged phone equals B's phone whenever B's phone is
present (non-null, even when empty), else A's phone; a phone field metadata
entry, when one exists, never carries a conflict flag. -/
theorem merge_phone_rule (a b : Customer) :
    ∃ u, merge (some a) (some b) = Except.ok u ∧
      (b.phone = none → u.phone = a.phone) ∧
      (∀ p, b.phone = some p → u.phone = some p) ∧
      (∀ fm, u._metadata.fields.phone = some fm → fm.conflict = false) := by
  refine ⟨mergeFromBothSystems a b, rfl, ?_, ?_, ?_⟩
  · intro h
    simp [mergeFromBothSystems, h]
  · intro p h
    simp [mergeFromBothSystems, h]
  · intro fm h
    simp only [mergeFromBothSystems] at h
    split at h
    · rw [Option.some.injEq] at h
      subst h
      rfl
    · split at h
      · rw [Option.some.injEq] at h
        subst h
        rfl
      · exact absurd h (by simp)

/-- C2: the merged name comes from the record with the strictly greater
`lastUpdated` (A wins on an exact tie); the name conflict flag is set iff the
two names differ; with equal names the winning source is BOTH. -/
theorem merge_name_rule (a b : Customer) :
    ∃ u, merge (some a) (some b) = Except.ok u ∧
      (a.lastUpdated < b.lastUpdated → u.name = b.name) ∧
      (b.lastUpdated ≤ a.lastUpdated → u.name = a.name) ∧
      (u._metadata.fields.name.conflict = true ↔ a.name ≠ b.name) ∧
      (a.name = b.name →
        u._metadata.fields.name.source = SourceSystem.both) := by
  refine ⟨mergeFromBothSystems a b, rfl, ?_, ?_, ?_, ?_⟩
  · intro h
    simp only [mergeFromBothSystems]
    split
    · rfl
    · omega
  · intro h
    simp only [mergeFromBothSystems]
    split
    · omega
    · rfl
  · simp [mergeFromBothSystems, bne_iff_ne]
  · intro h
    simp [mergeFromBothSystems, h]

/-- C3: `Customer` construction does not validate the email: this record is
constructed from an address that fails the validation pattern, and carries it
(normalization changes nothing here). -/
theorem customer_email_validation_cex :
    (Customer.create "c1" "not-an-email" "Max" "Addr" none none none 0
        SourceSystem.systemA).email = "not-an-email" ∧
    Email.isValid "not-an-email" = false := by
  exact ⟨by decide, by decide⟩

/-- C3 (amended): `Customer` construction normalizes the email but performs
no validation and cannot fail; only the separate `Email` value object
validates: its construction fails exactly when the normalized email fails
the pattern, and a constructed `Email` always holds a valid normalized
value. -/
theorem email_normalization_rule (id email name address : String)
    (phone csd ct : Option String) (lu : Int) (src : SourceSystem) :
    (Customer.create id email name address phone csd ct lu src).email =
      normalizeEmail email ∧
    (Email.create email = none ↔
      Email.isValid (normalizeEmail email) = false) ∧
    (∀ v, Email.create email = some v →
      v = normalizeEmail email ∧ Email.isValid v = true) := by
  refine ⟨rfl, ?_, ?_⟩
  · cases hv : Email.isValid (normalizeEmail email) <;>
      simp [Email.create, hv]
  · intro v h
    cases hv : Email.isValid (normalizeEmail email) <;>
      simp [Email.create, hv] at h
    exact ⟨h.symm, h ▸ hv⟩

/-- C9: `merge` succeeds exactly when at least one input is present, and on
two absent inputs it fails with the invariant-violation error. -/
theorem merge_requires_some_input (a b : Option Customer) :
    (merge a b).toOption.isSome = (a.isSome || b.isSome) ∧
    merge (none : Option Customer) none =
      Except.error "Cannot merge: no customer data from either system" := by
  refine ⟨?_, rfl⟩
  cases a <;> cases b <;> rfl

/-- C4: every conflict entry's `newerSource` is the side whose `lastUpdated`
is not earlier than the other's, with an exact tie resolved to A. -/
theorem diff_newerSource_rule (a b : Customer) (c : FieldConflict)
    (hc : c ∈ (diff a b).conflicts) :
    (b.lastUpdated ≤ a.lastUpdated → c.newerSource = SourceSystem.systemA) ∧
    (a.lastUpdated < b.lastUpdated → c.newerSource = SourceSystem.systemB) := by
  rw [diff_conflicts_eq] at hc
  obtain ⟨t, ht, rfl⟩ := List.mem_map.mp hc
  constructor
  · intro h
    simp only [diffNewerSource]
    split
    · rfl
    · omega
  · intro h
    simp only [diffNewerSource]
    split
    · omega
    · rfl

theorem diff_newerSource_rule_witness :
    (custB1.lastUpdated ≤ custA1.lastUpdated →
      ({ field := "name", systemAValue := some "Max Mustermann"
         systemBValue := some "Max M."
         newerSource := SourceSystem.systemB } : FieldConflict).newerSource =
        SourceSystem.systemA) ∧
    (custA1.lastUpdated < custB1.lastUpdated →
      ({ field := "name", systemAValue := some "Max Mustermann"
         systemBValue := some "Max M."
         newerSource := SourceSystem.systemB } : FieldConflict).newerSource =
        SourceSystem.systemB) :=
  diff_newerSource_rule custA1 custB1 _ (by decide)

/-- C6: for each compared field, `diff` skips it (neither matched nor
conflicting) iff both values are null; otherwise equal values are recorded in
`matchedFields` and unequal ones produce a conflict entry carrying both
values; the status is `conflicts_found` iff the conflict list is non-empty,
and is `in_sync` (not any other status) iff the conflict list is empty. -/
theorem diff_field_rule (a b : Customer)
    (t : String × Option String × Option String)
    (ht : t ∈ fieldsToCompare a b) :
    (t.2.1 = none ∧ t.2.2 = none →
      t.1 ∉ (diff a b).matchedFields ∧
      ∀ c ∈ (diff a b).conflicts, c.field ≠ t.1) ∧
    (¬(t.2.1 = none ∧ t.2.2 = none) → t.2.1 = t.2.2 →
      t.1 ∈ (diff a b).matchedFields) ∧
    (¬(t.2.1 = none ∧ t.2.2 = none) → t.2.1 ≠ t.2.2 →
      ({ field := t.1, systemAValue := t.2.1, systemBValue := t.2.2
         newerSource := diffNewerSource a b } : FieldConflict) ∈
        (diff a b).conflicts) ∧
    ((diff a b).status = SyncStatus.conflicts_found ↔
      (diff a b).conflicts ≠ []) ∧
    ((diff a b).status = SyncStatus.in_sync ↔
      (diff a b).conflicts = []) := by
  have hnodup : ((fieldsToCompare a b).map Prod.fst).Nodup := by
    rw [fieldsToCompare_names]
    decide
  have hinj := List.inj_on_of_nodup_map hnodup
  have hemail : t.1 ≠ "email" := by
    have hmem : t.1 ∈ (fieldsToCompare a b).map Prod.fst :=
      List.mem_map_of_mem Prod.fst ht
    rw [fieldsToCompare_names] at hmem
    intro h
    rw [h] at hmem
    exact absurd hmem (by decide)
  refine ⟨?_, ?_, ?_, ?_, ?_⟩
  · rintro ⟨h1, h2⟩
    have hsk : entrySkipped t = true := by
      simp [entrySkipped, h1, h2]
    constructor
    · rw [diff_matched_eq]
      intro hmem
      rcases List.mem_cons.mp hmem with h | h
      · exact hemail h
      · obtain ⟨t', ht'f, ht'1⟩ := List.mem_map.mp h
        have ht'mem := List.mem_of_mem_filter ht'f
        have ht'p := List.of_mem_filter ht'f
        have : t' = t := hinj ht'mem ht ht'1
        rw [this] at ht'p
        simp [entryMatched, hsk] at ht'p
    · rw [diff_conflicts_eq]
      rintro c hc
      obtain ⟨t', ht'f, rfl⟩ := List.mem_map.mp hc
      have ht'mem := List.mem_of_mem_filter ht'f
      have ht'p := List.of_mem_filter ht'f
      intro hfeq
      have : t' = t := hinj ht'mem ht hfeq
      rw [this] at ht'p
      simp [entryConflicting, hsk] at ht'p
  · intro hns heq
    rw [diff_matched_eq]
    refine List.mem_cons_of_mem _ (List.mem_map_of_mem Prod.fst ?_)
    refine List.mem_filter.mpr ⟨ht, ?_⟩
    have hsk : entrySkipped t = false := by
      rcases t with ⟨f, x, y⟩
      rcases x with _ | xv <;> rcases y with _ | yv <;>
        simp_all [entrySkipped]
    simp [entryMatched, hsk, heq]
  · intro hns hne
    rw [diff_conflicts_eq]
    have hsk : entrySkipped t = false := by
      rcases t with ⟨f, x, y⟩
      rcases x with _ | xv <;> rcases y with _ | yv <;>
        simp_all [entrySkipped]
    have hp : entryConflicting t = true := by
      simp [entryConflicting, hsk, hne]
    exact List.mem_map_of_mem _ (List.mem_filter.mpr ⟨ht, hp⟩)
  · rw [diff_status_eq]
    rcases h : (diff a b).conflicts with _ | ⟨c, cs⟩ <;> simp
  · rw [diff_status_eq]
    rcases h : (diff a b).conflicts with _ | ⟨c, cs⟩ <;> simp

theorem diff_field_rule_witness :
    ({ field := "phone", systemAValue := some "+49 111"
       systemBValue := some "+49 222"
       newerSource := diffNewerSource custA1 custB1 } : FieldConflict) ∈
      (diff custA1 custB1).conflicts :=
  (diff_field_rule custA1 custB1 ("phone", some "+49 111", some "+49 222")
      (by decide)).2.2.1 (by simp) (by decide)

/-- C5: the Sync operation's single-source result has an empty
`matchedFields`: `email` is not included there, contradicting "always
includes email". -/
theorem sync_matchedFields_claim_cex :
    (syncCustomer "max@example.de" (fun _ => some custA1)
        (fun _ => none)).toOption.map
      (fun r => r.matchedFields.contains "email") = some false := by decide

/-- C5 (amended): a Sync/Diff result's `matchedFields` contains `email` iff
its status is not `single_source_only`: the Diff engine unconditionally
records `email` as matched, while the single-source path returns an empty
`matchedFields`. -/
theorem sync_matchedFields_email (email : String)
    (lookupA lookupB : String → Option Customer) (r : SyncResultOutput)
    (h : syncCustomer email lookupA lookupB = Except.ok r) :
    ("email" ∈ r.matchedFields ↔ r.status ≠ SyncStatus.single_source_only) ∧
    ∀ a b : Customer, "email" ∈ (diff a b).matchedFields := by
  constructor
  · unfold syncCustomer at h
    rcases ha : lookupA (normalizeEmail email) with _ | cA <;>
      rcases hb : lookupB (normalizeEmail email) with _ | cB <;>
      simp only [ha, hb] at h
    · exact absurd h (by simp)
    · rw [Except.ok.injEq] at h
      subst h
      simp
    · rw [Except.ok.injEq] at h
      subst h
      simp
    · rw [Except.ok.injEq] at h
      subst h
      refine iff_of_true ?_ ?_
      · rw [diff_matched_eq]
        exact List.mem_cons_self _ _
      · rw [diff_status_eq]
        split <;> simp
  · intro a b
    rw [diff_matched_eq]
    exact List.mem_cons_self _ _

theorem sync_matchedFields_email_witness :
    "email" ∈ (diff custA1 custB1).matchedFields :=
  ((sync_matchedFields_email "max@example.de" (fun _ => some custA1)
      (fun _ => some custB1) (diff custA1 custB1) rfl).1).mpr (by decide)

/-- C7: given at least one present lookup result, the merge engine itself
always reports `isPartial = false`, and the orchestrators' shared
partial-flag step yields a unified record whose `isPartial` is true iff
exactly one of the two lookup results is present. -/
theorem merge_partial_flag (a b : Option Customer)
    (h : a.isSome = true ∨ b.isSome = true) :
    (∀ u, merge a b = Except.ok u → u._metadata.isPartial = false) ∧
    (∃ u, mergeLookupPair a b = Except.ok u ∧
      (u._metadata.isPartial = true ↔
        (a.isSome = true ∧ b.isNone = true) ∨
        (a.isNone = true ∧ b.isSome = true))) := by
  rcases a with _ | cA <;> rcases b with _ | cB
  · simp at h
  · refine ⟨?_, ⟨_, rfl, ?_⟩⟩
    · intro u hu
      simp only [merge, Except.ok.injEq] at hu
      subst hu
      rfl
    · simp [mergeLookupPair, merge, applyPartialFlag]
  · refine ⟨?_, ⟨_, rfl, ?_⟩⟩
    · intro u hu
      simp only [merge, Except.ok.injEq] at hu
      subst hu
      rfl
    · simp [mergeLookupPair, merge, applyPartialFlag]
  · refine ⟨?_, ⟨_, rfl, ?_⟩⟩
    · intro u hu
      simp only [merge, Except.ok.injEq] at hu
      subst hu
      rfl
    · simp [mergeLookupPair, merge, applyPartialFlag, mergeFromBothSystems]

theorem merge_partial_flag_witness :
    ∃ u, mergeLookupPair (some custA1) none = Except.ok u ∧
      (u._metadata.isPartial = true ↔
        ((some custA1 : Option Customer).isSome = true ∧
          (none : Option Customer).isNone = true) ∨
        ((some custA1 : Option Customer).isNone = true ∧
          (none : Option Customer).isSome = true)) :=
  (merge_partial_flag (some custA1) none (Or.inl rfl)).2

/-- C8: GetByEmail and Sync fail with NotFound exactly when both sources'
lookups return absent for the normalized email. -/
theorem lookup_notFound_rule (email : String)
    (lookupA lookupB : String → Option Customer) :
    ((∃ e, getCustomerByEmail email lookupA lookupB =
        Except.error (UseCaseError.notFound e)) ↔
      lookupA (normalizeEmail email) = none ∧
      lookupB (normalizeEmail email) = none) ∧
    ((∃ e, syncCustomer email lookupA lookupB =
        Except.error (UseCaseError.notFound e)) ↔
      lookupA (normalizeEmail email) = none ∧
      lookupB (normalizeEmail email) = none) := by
  rcases ha : lookupA (normalizeEmail email) with _ | cA <;>
    rcases hb : lookupB (normalizeEmail email) with _ | cB <;>
    constructor <;>
    simp [getCustomerByEmail, syncCustomer, mergeLookupPair, merge,
      applyPartialFlag, ha, hb]

/-! Lemmas supporting the unreachability of the merge invariant error. -/

lemma buildEmailMap_isSome (cs : List Customer) (e : String) :
    (buildEmailMap cs e).isSome = true ↔ e ∈ cs.map Customer.email := by
  suffices h : ∀ m : String → Option Customer,
      ((cs.foldl (fun m c => fun x => if x = c.email then some c else m x) m)
          e).isSome = true ↔
        (m e).isSome = true ∨ e ∈ cs.map Customer.email by
    simpa [buildEmailMap] using h (fun _ => none)
  induction cs with
  | nil => intro m; simp
  | cons c tl ih =>
    intro m
    rw [List.foldl_cons, ih]
    by_cases hc : e = c.email <;> simp [hc]

lemma crossReferencedMap_isSome (m : String → Option Customer)
    (emails : List String) (lookup : String → Option Customer) (e : String)
    (h : (m e).isSome = true) :
    ((crossReferencedMap m emails lookup) e).isSome = true := by
  unfold crossReferencedMap
  rcases hm : m e with _ | c
  · rw [hm] at h
    exact absurd h (by simp)
  · simp

lemma mem_allEmails (customersA customersB : List Customer) (e : String) :
    e ∈ allEmails customersA customersB ↔
      e ∈ customersA.map Customer.email ∨
      e ∈ customersB.map Customer.email := by
  unfold allEmails
  suffices h : ∀ (l acc : List String),
      e ∈ l.foldl insertUnique acc ↔ e ∈ acc ∨ e ∈ l by
    rw [h]
    simp
  intro l
  induction l with
  | nil => intro acc; simp
  | cons x tl ih =>
    intro acc
    rw [List.foldl_cons, ih]
    unfold insertUnique
    by_cases hx : x ∈ acc
    · rw [if_pos hx]
      constructor
      · rintro (h | h)
        · exact Or.inl h
        · exact Or.inr (List.mem_cons_of_mem _ h)
      · rintro (h | h)
        · exact Or.inl h
        · rcases List.mem_cons.mp h with h | h
          · exact Or.inl (h ▸ hx)
          · exact Or.inr h
    · rw [if_neg hx]
      simp only [List.mem_append, List.mem_singleton, List.mem_cons]
      tauto

lemma mergeLookupPair_ok (a b : Option Customer)
    (h : a.isSome = true ∨ b.isSome = true) :
    ∃ u, mergeLookupPair a b = Except.ok u := by
  rcases a with _ | cA <;> rcases b with _ | cB
  · simp at h
  · exact ⟨_, rfl⟩
  · exact ⟨_, rfl⟩
  · exact ⟨_, rfl⟩

lemma collectMerged_ok
    (f : String → Except UseCaseError UnifiedCustomerOutput)
    (l : List String) (h : ∀ e ∈ l, ∃ u, f e = Except.ok u) :
    ∃ rs, collectMerged f l = Except.ok rs := by
  induction l with
  | nil => exact ⟨[], rfl⟩
  | cons e tl ih =>
    obtain ⟨u, hu⟩ := h e (List.mem_cons_self e tl)
    obtain ⟨rs, hrs⟩ := ih (fun x hx => h x (List.mem_cons_of_mem _ hx))
    exact ⟨u :: rs, by simp [collectMerged, hu, hrs]⟩

/-- C10: the merge engine's both-inputs-absent failure is unreachable from
the orchestrators: GetByEmail never surfaces a merge failure (its NotFound
pre-check guards the merge), and SearchByName always succeeds — every merged
email was collected from at least one side's search results, which the
cross-reference step can only extend. -/
theorem merge_invariant_unreachable (email : String)
    (lookupA lookupB : String → Option Customer)
    (customersA customersB : List Customer) :
    (∀ m, getCustomerByEmail email lookupA lookupB ≠
      Except.error (UseCaseError.mergeFailure m)) ∧
    (∃ rs, searchCustomers customersA customersB lookupA lookupB =
      Except.ok rs) := by
  constructor
  · intro m
    unfold getCustomerByEmail
    rcases ha : lookupA (normalizeEmail email) with _ | cA <;>
      rcases hb : lookupB (normalizeEmail email) with _ | cB <;>
      simp [ha, hb, mergeLookupPair, merge]
  · unfold searchCustomers
    apply collectMerged_ok
    intro e he
    apply mergeLookupPair_ok
    rcases (mem_allEmails customersA customersB e).mp he with h | h
    · exact Or.inl (crossReferencedMap_isSome _ _ _ _
        ((buildEmailMap_isSome customersA e).mpr h))
    · exact Or.inr (crossReferencedMap_isSome _ _ _ _
        ((buildEmailMap_isSome customersB e).mpr h))

end CustMig
